import Mathlib

/-!
# opentonapi `pkg/core`: address book override, message operation decoder, account converter

A shallow embedding of `pkg/core/addresser.go` (the two-tier address book) together
with models of the message operation decoder and of the account converter that the
tests of `pkg/core/converters_test.go` exercise.

Conventions of the embedding:

* a Go `map[K]V` value is a `GoMap K V`: the nil map, or a table of entries read by
  the comma-ok lookup `GoMap.get`;
* a Go `error` result is an `Option GoError`, `none` standing for `nil`;
* a method of the `addressBook` interface is a function from the directory's state
  to its result and the next state, so that "the fallback is not consulted" is a
  statement about the state as well as about the result.
-/

namespace Core

/-! ## Go values -/

/-- The address identifier `tongo.AccountID`: a workchain number and the bytes of the
account hash. Two identifiers are equal when both components are. -/
structure AccountID where
  Workchain : Int
  Address : List Nat
deriving DecidableEq, Repr

/-- A non-nil value of Go's `error` interface, kept as its message. -/
abbrev GoError := String

/-- A Go map value: the nil map or a table of entries. A lookup sees the first entry
of a key, so a table stands for the finite map its entries build. -/
inductive GoMap (K V : Type) where
  | nil : GoMap K V
  | table (entries : List (K × V)) : GoMap K V
deriving DecidableEq, Repr

/-- First value bound to `k` among the entries. -/
def lookupEntry {K V : Type} [DecidableEq K] (k : K) : List (K × V) → Option V
  | [] => none
  | (k', v) :: rest => if k' = k then some v else lookupEntry k rest

/-- The comma-ok lookup `v, exists := m[k]`: `some v` when `k` is a key, `none`
otherwise. Reading the nil map is allowed and finds nothing. -/
def GoMap.get {K V : Type} [DecidableEq K] : GoMap K V → K → Option V
  | GoMap.nil, _ => none
  | GoMap.table entries, k => lookupEntry k entries

/-- The keys of a map. -/
def GoMap.keys {K V : Type} : GoMap K V → List K
  | GoMap.nil => []
  | GoMap.table entries => entries.map Prod.fst

/-- The index expression `m[k]`: the value of `k`, or the zero value of `V`. -/
def GoMap.index {K V : Type} [DecidableEq K] [Inhabited V] (m : GoMap K V) (k : K) : V :=
  (m.get k).getD default

/-! ## `addresser.go` -/

/-- The record types of package `addressbook` that the directory hands out. The
address book layer never looks inside them. -/
structure DirectoryTypes where
  KnownAddress : Type
  KnownCollection : Type
  KnownJetton : Type
  TFPoolInfo : Type
  AttachedAccount : Type

/-- A call on a directory whose state is `σ`: the result and the state afterwards. -/
abbrev Call (σ α : Type) := σ → α × σ

/-- The interface `addressBook`: one field per method, in the order of the source. -/
structure addressBook (T : DirectoryTypes) (σ : Type) where
  IsWallet : AccountID → Call σ (Bool × Option GoError)
  GetAddressInfoByAddress : AccountID → Call σ (T.KnownAddress × Bool)
  GetCollectionInfoByAddress : AccountID → Call σ (T.KnownCollection × Bool)
  GetJettonInfoByAddress : AccountID → Call σ (T.KnownJetton × Bool)
  GetTFPoolInfo : AccountID → Call σ (T.TFPoolInfo × Bool)
  GetKnownJettons : Call σ (GoMap AccountID T.KnownJetton)
  GetKnownCollections : Call σ (GoMap AccountID T.KnownCollection)
  SearchAttachedAccountsByPrefix : String → Call σ (List T.AttachedAccount)

/-- The struct `SimpleAddressBook`: the embedded `addressBook` and the `wallets` map. -/
structure SimpleAddressBook (T : DirectoryTypes) (σ : Type) where
  addressBook : addressBook T σ
  wallets : GoMap AccountID Bool

/-- The constructor `NewSimpleAddressBook(wallets, defaultBook)`. -/
def NewSimpleAddressBook {T : DirectoryTypes} {σ : Type}
    (wallets : GoMap AccountID Bool) (defaultBook : addressBook T σ) : SimpleAddressBook T σ :=
  { addressBook := defaultBook, wallets := wallets }

/-- The method `(*SimpleAddressBook).IsWallet`: the value of `wallets` when the account is
a key there, the embedded book's answer otherwise. -/
def SimpleAddressBook.IsWallet {T : DirectoryTypes} {σ : Type}
    (s : SimpleAddressBook T σ) (accountID : AccountID) : Call σ (Bool × Option GoError) :=
  fun st =>
    match s.wallets.get accountID with
    | some isWallet => ((isWallet, none), st)
    | none => s.addressBook.IsWallet accountID st

/-- Promoted from the embedded `addressBook`. -/
def SimpleAddressBook.GetAddressInfoByAddress {T : DirectoryTypes} {σ : Type}
    (s : SimpleAddressBook T σ) (a : AccountID) : Call σ (T.KnownAddress × Bool) :=
  s.addressBook.GetAddressInfoByAddress a

/-- Promoted from the embedded `addressBook`. -/
def SimpleAddressBook.GetCollectionInfoByAddress {T : DirectoryTypes} {σ : Type}
    (s : SimpleAddressBook T σ) (a : AccountID) : Call σ (T.KnownCollection × Bool) :=
  s.addressBook.GetCollectionInfoByAddress a

/-- Promoted from the embedded `addressBook`. -/
def SimpleAddressBook.GetJettonInfoByAddress {T : DirectoryTypes} {σ : Type}
    (s : SimpleAddressBook T σ) (a : AccountID) : Call σ (T.KnownJetton × Bool) :=
  s.addressBook.GetJettonInfoByAddress a

/-- Promoted from the embedded `addressBook`. -/
def SimpleAddressBook.GetTFPoolInfo {T : DirectoryTypes} {σ : Type}
    (s : SimpleAddressBook T σ) (a : AccountID) : Call σ (T.TFPoolInfo × Bool) :=
  s.addressBook.GetTFPoolInfo a

/-- Promoted from the embedded `addressBook`. -/
def SimpleAddressBook.GetKnownJettons {T : DirectoryTypes} {σ : Type}
    (s : SimpleAddressBook T σ) : Call σ (GoMap AccountID T.KnownJetton) :=
  s.addressBook.GetKnownJettons

/-- Promoted from the embedded `addressBook`. -/
def SimpleAddressBook.GetKnownCollections {T : DirectoryTypes} {σ : Type}
    (s : SimpleAddressBook T σ) : Call σ (GoMap AccountID T.KnownCollection) :=
  s.addressBook.GetKnownCollections

/-- Promoted from the embedded `addressBook`. -/
def SimpleAddressBook.SearchAttachedAccountsByPrefix {T : DirectoryTypes} {σ : Type}
    (s : SimpleAddressBook T σ) (pfx : String) : Call σ (List T.AttachedAccount) :=
  s.addressBook.SearchAttachedAccountsByPrefix pfx

/-! ### Sample directories used at concrete inputs -/

/-- Record types of a directory that stores a number per record. -/
abbrev natRecords : DirectoryTypes :=
  { KnownAddress := Nat, KnownCollection := Nat, KnownJetton := Nat,
    TFPoolInfo := Nat, AttachedAccount := Nat }

/-- A directory whose state counts the calls made on it; `IsWallet` answers `answer`. -/
def countingBook (answer : Bool × Option GoError) : addressBook natRecords Nat :=
  { IsWallet := fun _ n => (answer, n + 1)
    GetAddressInfoByAddress := fun _ n => (((0 : Nat), false), n + 1)
    GetCollectionInfoByAddress := fun _ n => (((0 : Nat), false), n + 1)
    GetJettonInfoByAddress := fun _ n => (((0 : Nat), false), n + 1)
    GetTFPoolInfo := fun _ n => (((0 : Nat), false), n + 1)
    GetKnownJettons := fun n => (GoMap.nil, n + 1)
    GetKnownCollections := fun n => (GoMap.nil, n + 1)
    SearchAttachedAccountsByPrefix := fun _ n => ([], n + 1) }

/-- A sample account of the base workchain. -/
def acctA : AccountID := { Workchain := 0, Address := [1, 2, 3] }

/-- A second sample account. -/
def acctB : AccountID := { Workchain := 0, Address := [4, 5, 6] }

/-! ## Message operation decoder -/

/-- A cell of the ledger's encoding: a slice of bits and the cells it refers to. -/
inductive Cell where
  | mk (bits : List Bool) (refs : List Cell) : Cell

/-- The bits of a cell. -/
def Cell.bits : Cell → List Bool
  | Cell.mk bits _ => bits

/-- The child references of a cell. -/
def Cell.refs : Cell → List Cell
  | Cell.mk _ refs => refs

/-- The number a run of bits spells, most significant bit first. -/
def bitsToNat (bs : List Bool) : Nat :=
  bs.foldl (fun acc b => 2 * acc + (if b then 1 else 0)) 0

/-- The `w` low bits of `n`, most significant bit first. -/
def natToBits : Nat → Nat → List Bool
  | 0, _ => []
  | w + 1, n => natToBits w (n / 2) ++ [decide (n % 2 = 1)]

/-- Width of an operation tag, in bits. -/
def tagWidth : Nat := 32

/-- Modelled from the spec: reading the fixed-width operation tag that prefixes a message
body (the cell reader is an external collaborator). A body shorter than a tag has none. -/
def readTag (body : Cell) : Option Nat :=
  if body.bits.length < tagWidth then none
  else some (bitsToNat (body.bits.take tagWidth))

/-- Modelled from the spec: the remaining body, past the tag. -/
def Cell.afterTag (body : Cell) : Cell :=
  Cell.mk (body.bits.drop tagWidth) body.refs

/-- Modelled from the spec: an operation-decoder interface of the registry (the elements
of `extInMsgDecoderInterfaces`, declared outside the sources at hand). It exposes
`recognizes(tag)` and `decode(body)`, and names the operation it stands for. -/
structure OpDecoder (P : Type) where
  operation : String
  recognizes : Nat → Bool
  decode : Cell → Except String P

/-- The decode errors of the core, one constructor per cause that an input of the models
below can raise. -/
inductive DecodeError where
  | bodyTooShort : DecodeError
  | malformedBody (operation : String) (cause : String) : DecodeError
  | numericOverflow (field : String) : DecodeError
deriving DecidableEq, Repr

/-- What the decoder reports without error: a matched operation with its tag, name and
decoded value, or "no match" with the raw tag alone. -/
inductive Decoded (P : Type) where
  | matched (tag : Nat) (operation : String) (value : P) : Decoded P
  | noMatch (tag : Nat) : Decoded P
deriving DecidableEq, Repr

/-- The tag a result carries. -/
def Decoded.tag {P : Type} : Decoded P → Nat
  | Decoded.matched tag _ _ => tag
  | Decoded.noMatch tag => tag

/-- The operation a result names, if any. -/
def Decoded.operation? {P : Type} : Decoded P → Option String
  | Decoded.matched _ operation _ => some operation
  | Decoded.noMatch _ => none

/-- Modelled from the spec: what the decoder returns once interface `d` has claimed the
tag: the structural decode of the remaining body decides, and a failure there is a
decode error of the whole call. -/
def claimOutcome {P : Type} (d : OpDecoder P) (tag : Nat) (body : Cell) :
    Except DecodeError (Decoded P) :=
  match d.decode body.afterTag with
  | Except.ok value => Except.ok (Decoded.matched tag d.operation value)
  | Except.error cause => Except.error (DecodeError.malformedBody d.operation cause)

/-- Modelled from the spec: the walk over the registry in declared order, for a body whose
tag has been read. The first interface that recognizes the tag ends the walk; when none
does the result is "no match" with the raw tag. -/
def decodeWithTag {P : Type} (tag : Nat) (body : Cell) :
    List (OpDecoder P) → Except DecodeError (Decoded P)
  | [] => Except.ok (Decoded.noMatch tag)
  | d :: rest =>
    if d.recognizes tag then claimOutcome d tag body
    else decodeWithTag tag body rest

/-- Modelled from the spec: the message operation decoder `abi.ExtInMessageDecoder(root,
interfaces)` that `TestConvertMessage` calls and whose body is not among the sources at
hand. A body too short for a tag is a decode error; otherwise the registry is walked. -/
def ExtInMessageDecoder {P : Type} (body : Cell) (interfaces : List (OpDecoder P)) :
    Except DecodeError (Decoded P) :=
  match readTag body with
  | none => Except.error DecodeError.bodyTooShort
  | some tag => decodeWithTag tag body interfaces

/-! ## Account converter -/

/-- The account status enumeration (`tlb.AccountActive` and its siblings). -/
inductive AccountStatus where
  | Active : AccountStatus
  | Frozen : AccountStatus
  | Uninitialized : AccountStatus
  | NonExistent : AccountStatus
deriving DecidableEq, Repr

/-- A binary blob, byte by byte. -/
abbrev Blob := List Nat

/-- The struct `StorageInfo`, with the fields the test's expected value lists. The test
builds `UsedCells`, `UsedBits` and `UsedPublicCells` with `big.NewInt`: they are unbounded.
It gives `LastPaid` and `DuePayment` plain constants: they are built-in numbers of a fixed
width, kept here as the number held and bounded through `Account.fits`. -/
structure StorageInfo where
  UsedCells : Nat
  UsedBits : Nat
  UsedPublicCells : Nat
  LastPaid : Nat
  DuePayment : Nat
deriving DecidableEq, Repr

/-- The struct `Account`, with the fields the test reads and compares. `ExtraBalances` is a
Go map (nil when absent); `Code` and `Data` are byte slices (`none` for nil). The test gives
`TonBalance` and `LastTransactionLt` plain constants: they are built-in numbers of a fixed
width, the logical time a 64-bit one; `TonBalance` is bounded through `Account.fits`. -/
structure Account where
  AccountAddress : AccountID
  Status : AccountStatus
  TonBalance : Nat
  ExtraBalances : GoMap Nat Nat
  LastTransactionLt : Nat
  Storage : StorageInfo
  Code : Option Blob
  Data : Option Blob
deriving DecidableEq, Repr

/-- Modelled from the spec: the storage-stat sub-record of a schema record. -/
structure StorageStat where
  usedCells : Nat
  usedBits : Nat
  usedPublicCells : Nat
  lastPaid : Nat
  duePayment : Nat
deriving DecidableEq, Repr

/-- Modelled from the spec: the state a schema record carries, as the blobs of its code
and data cell references. -/
structure StateInit where
  code : Blob
  data : Blob
deriving DecidableEq, Repr

/-- Modelled from the spec: the schema-decoded account record (`tlb.ShardAccount`, a type
of the schema decoder), already validated against the schema: the status discriminant,
the balance (an arbitrary-precision integer) with its extra-currency collection, the
64-bit logical time of the last transaction, the storage-stat sub-record and the optional
state sub-record. -/
structure ShardAccount where
  status : AccountStatus
  balance : Nat
  extraCurrencies : List (Nat × Nat)
  lastTransLt : Nat
  storageStat : StorageStat
  state : Option StateInit
deriving DecidableEq, Repr

/-- The number of value bits of the built-in numeric fields `TonBalance`, `LastPaid` and
`DuePayment`. The struct declarations are outside the sources at hand, so the widths are
a parameter of the converter. -/
structure AccountWidths where
  TonBalance : Nat
  LastPaid : Nat
  DuePayment : Nat
deriving DecidableEq, Repr

/-- No built-in integer of Go has more than 64 bits. -/
def AccountWidths.builtin (W : AccountWidths) : Prop :=
  W.TonBalance ≤ 64 ∧ W.LastPaid ≤ 64 ∧ W.DuePayment ≤ 64

/-- An account value fits the widths when each of its built-in numeric fields holds a
number of that many bits. -/
def Account.fits (W : AccountWidths) (acc : Account) : Prop :=
  acc.TonBalance < 2 ^ W.TonBalance ∧ acc.Storage.LastPaid < 2 ^ W.LastPaid ∧
    acc.Storage.DuePayment < 2 ^ W.DuePayment

/-- Sample widths: a signed 64-bit balance and due payment, an unsigned 32-bit timestamp. -/
def sampleWidths : AccountWidths := { TonBalance := 63, LastPaid := 32, DuePayment := 63 }

/-- The minimal account of a status that implies no state: zero balance, nothing else. -/
def minimalAccount (accountID : AccountID) (status : AccountStatus) : Account :=
  { AccountAddress := accountID
    Status := status
    TonBalance := 0
    ExtraBalances := GoMap.nil
    LastTransactionLt := 0
    Storage := { UsedCells := 0, UsedBits := 0, UsedPublicCells := 0, LastPaid := 0,
                 DuePayment := 0 }
    Code := none
    Data := none }

/-- Modelled from the spec: the extra-currency mapping of an account, absent (nil) for an
empty collection and the collection's entries otherwise. -/
def extraBalancesOf (items : List (Nat × Nat)) : GoMap Nat Nat :=
  if items.isEmpty then GoMap.nil else GoMap.table items

/-- Modelled from the spec: the storage statistics, copied field by field. -/
def storageInfoOf (st : StorageStat) : StorageInfo :=
  { UsedCells := st.usedCells
    UsedBits := st.usedBits
    UsedPublicCells := st.usedPublicCells
    LastPaid := st.lastPaid
    DuePayment := st.duePayment }

/-- Modelled from the spec: the converter `ConvertToAccount(accountID, shardAccount)` of
`pkg/core`, which `TestConvertToAccount` calls and whose body is not among the sources at
hand; `W` gives the widths of the account's built-in numeric fields. The status is the
record's discriminant; a non-existent account short-circuits to the minimal account;
otherwise a balance, last-paid timestamp or due payment beyond the width of its field is a
decode error, and the account takes the record's balance, extra currencies, logical time,
storage statistics and the blobs of its state. A validated record has its storage-stat
sub-record, so no input here lacks the storage info its status requires. -/
def ConvertToAccount (W : AccountWidths) (accountID : AccountID) (shardAccount : ShardAccount) :
    Except DecodeError Account :=
  if shardAccount.status = AccountStatus.NonExistent then
    Except.ok (minimalAccount accountID AccountStatus.NonExistent)
  else if 2 ^ W.TonBalance ≤ shardAccount.balance then
    Except.error (DecodeError.numericOverflow "TonBalance")
  else if 2 ^ W.LastPaid ≤ shardAccount.storageStat.lastPaid then
    Except.error (DecodeError.numericOverflow "LastPaid")
  else if 2 ^ W.DuePayment ≤ shardAccount.storageStat.duePayment then
    Except.error (DecodeError.numericOverflow "DuePayment")
  else
    Except.ok
      { AccountAddress := accountID
        Status := shardAccount.status
        TonBalance := shardAccount.balance
        ExtraBalances := extraBalancesOf shardAccount.extraCurrencies
        LastTransactionLt := shardAccount.lastTransLt
        Storage := storageInfoOf shardAccount.storageStat
        Code := shardAccount.state.map StateInit.code
        Data := shardAccount.state.map StateInit.data }

/-- A schema record carries a non-empty state when its state sub-record is there and
both the code and the data of that state have content. -/
def carriesNonEmptyState (shardAccount : ShardAccount) : Prop :=
  ∃ st, shardAccount.state = some st ∧ st.code ≠ [] ∧ st.data ≠ []

/-- The account record of the test's scenario "active account with data"; the code and
data blobs stand for the serialised cells of the fixture. -/
def activeRecord : ShardAccount :=
  { status := AccountStatus.Active
    balance := 989109352
    extraCurrencies := []
    lastTransLt := 31236013000006
    storageStat := { usedCells := 46, usedBits := 13485, usedPublicCells := 0,
                     lastPaid := 1663270333, duePayment := 0 }
    state := some { code := [181, 238, 156, 114], data := [181, 238, 156, 114, 1] } }

/-- The same record with a balance of `2 ^ 64 + 1`, a number no built-in numeric type of Go
holds exactly. -/
def wideBalanceRecord : ShardAccount := { activeRecord with balance := 2 ^ 64 + 1 }

/-- The address of the test's scenario, `EQDendoi...`, as workchain and hash bytes. -/
def activeAddress : AccountID :=
  { Workchain := 0
    Address := [222, 157, 218, 34, 173, 227, 3, 20, 203, 159, 57, 76, 228, 168, 218, 69,
                33, 172, 188, 220, 105, 227, 87, 107, 96, 24, 198, 192, 235, 140, 0, 222] }

/-- The account the test expects for that record, with the blobs the test checks for
content before it clears them. -/
def activeAccount : Account :=
  { AccountAddress := activeAddress
    Status := AccountStatus.Active
    TonBalance := 989109352
    ExtraBalances := GoMap.nil
    LastTransactionLt := 31236013000006
    Storage := { UsedCells := 46, UsedBits := 13485, UsedPublicCells := 0,
                 LastPaid := 1663270333, DuePayment := 0 }
    Code := some [181, 238, 156, 114]
    Data := some [181, 238, 156, 114, 1] }

/-- The body of the test's scenario `WalletSignedExternalV5R1`, cut down to its tag
`0x7369676e` followed by one byte. -/
def signedBody : Cell :=
  Cell.mk (natToBits 32 0x7369676e ++ natToBits 8 0x7f) []

/-- An interface that claims the tag `0x7369676e` and whose structural decode fails. -/
def strictSigned : OpDecoder Nat :=
  { operation := "WalletSignedExternalV5R1"
    recognizes := fun tag => tag == 0x7369676e
    decode := fun _ => Except.error "unexpected end of body" }

/-- An interface that claims the same tag and decodes every body. -/
def lenientSigned : OpDecoder Nat :=
  { operation := "WalletSignedLenient"
    recognizes := fun tag => tag == 0x7369676e
    decode := fun rest => Except.ok (bitsToNat rest.bits) }

/-- An interface for another tag. -/
def otherOp : OpDecoder Nat :=
  { operation := "JettonTransfer"
    recognizes := fun tag => tag == 0x0f8a7ea5
    decode := fun rest => Except.ok (bitsToNat rest.bits) }

/-! ## Lemmas on Go maps -/

theorem lookupEntry_eq_none {K V : Type} [DecidableEq K] (k : K) (entries : List (K × V)) :
    lookupEntry k entries = none ↔ k ∉ entries.map Prod.fst := by
  induction entries with
  | nil => simp [lookupEntry]
  | cons e rest ih =>
    obtain ⟨k', v⟩ := e
    by_cases hk : k' = k
    · simp [lookupEntry, hk]
    · have hk' : ¬ k = k' := fun h => hk h.symm
      simp [lookupEntry, hk, hk', ih]

theorem GoMap.get_eq_none {K V : Type} [DecidableEq K] (m : GoMap K V) (k : K) :
    m.get k = none ↔ k ∉ m.keys := by
  cases m with
  | nil => simp [GoMap.get, GoMap.keys]
  | table entries => simpa [GoMap.get, GoMap.keys] using lookupEntry_eq_none k entries

theorem GoMap.get_of_mem_keys {K V : Type} [DecidableEq K] [Inhabited V] (m : GoMap K V)
    (k : K) (h : k ∈ m.keys) : m.get k = some (m.index k) := by
  cases hget : m.get k with
  | none => exact absurd h ((GoMap.get_eq_none m k).mp hget)
  | some v => simp [GoMap.index, hget]

/-! ## The address book override -/

/-- Claim C1. For an address that is a key of the override map, `IsWallet` returns the
map's value and no error, leaves the fallback directory's state untouched, and returns
the same for any other fallback directory. -/
theorem IsWallet_override_wins {T : DirectoryTypes} {σ : Type} (m : GoMap AccountID Bool)
    (d d' : addressBook T σ) (a : AccountID) (st : σ) (hkey : a ∈ m.keys) :
    (NewSimpleAddressBook m d).IsWallet a st = ((m.index a, none), st) ∧
      (NewSimpleAddressBook m d').IsWallet a st = (NewSimpleAddressBook m d).IsWallet a st := by
  have hget := GoMap.get_of_mem_keys m a hkey
  simp [SimpleAddressBook.IsWallet, NewSimpleAddressBook, hget]

/-- At the override `acctA ↦ false`, a fallback that would answer `true` together with an
error is not consulted: the answer is `false`, without error, and no call is counted. -/
theorem IsWallet_override_wins_witness :
    acctA ∈ (GoMap.table [(acctA, false)]).keys ∧
      (countingBook (true, some "directory unavailable")).IsWallet acctA 0
        = ((true, some "directory unavailable"), 1) ∧
      (NewSimpleAddressBook (GoMap.table [(acctA, false)])
          (countingBook (true, some "directory unavailable"))).IsWallet acctA 0
        = ((false, none), 0) :=
  ⟨by decide, rfl,
    (IsWallet_override_wins (GoMap.table [(acctA, false)])
      (countingBook (true, some "directory unavailable"))
      (countingBook (false, none)) acctA 0 (by decide)).1⟩

/-- Claim C2. For an address that is not a key of the override map, `IsWallet` is the
fallback directory's `IsWallet` on the same address: same boolean, same error, same
effect on the directory. -/
theorem IsWallet_delegates {T : DirectoryTypes} {σ : Type} (m : GoMap AccountID Bool)
    (d : addressBook T σ) (a : AccountID) (st : σ) (hkey : a ∉ m.keys) :
    (NewSimpleAddressBook m d).IsWallet a st = d.IsWallet a st := by
  have hget := (GoMap.get_eq_none m a).mpr hkey
  simp [SimpleAddressBook.IsWallet, NewSimpleAddressBook, hget]

/-- With the override on `acctA` only, a query for `acctB` is the directory's answer. -/
theorem IsWallet_delegates_witness :
    acctB ∉ (GoMap.table [(acctA, false)]).keys ∧
      (NewSimpleAddressBook (GoMap.table [(acctA, false)])
          (countingBook (true, some "directory unavailable"))).IsWallet acctB 0
        = ((true, some "directory unavailable"), 1) :=
  ⟨by decide,
    IsWallet_delegates (GoMap.table [(acctA, false)])
      (countingBook (true, some "directory unavailable")) acctB 0 (by decide)⟩

/-- Claim C3. `IsWallet` returns an error exactly when the address is not a key of the
override map and the fallback directory's `IsWallet` returns an error, and the error it
returns is then the fallback's error. -/
theorem IsWallet_error_iff {T : DirectoryTypes} {σ : Type} (m : GoMap AccountID Bool)
    (d : addressBook T σ) (a : AccountID) (st : σ) :
    (((NewSimpleAddressBook m d).IsWallet a st).1.2 ≠ none ↔
        a ∉ m.keys ∧ (d.IsWallet a st).1.2 ≠ none) ∧
      (((NewSimpleAddressBook m d).IsWallet a st).1.2 ≠ none →
        ((NewSimpleAddressBook m d).IsWallet a st).1.2 = (d.IsWallet a st).1.2) := by
  by_cases hkey : a ∈ m.keys
  · have hget := GoMap.get_of_mem_keys m a hkey
    simp [SimpleAddressBook.IsWallet, NewSimpleAddressBook, hget, hkey]
  · have hget := (GoMap.get_eq_none m a).mpr hkey
    simp [SimpleAddressBook.IsWallet, NewSimpleAddressBook, hget, hkey]

/-- Claim C4. Every query of `SimpleAddressBook` other than `IsWallet` returns, for every
argument and directory state, what the same query on the fallback directory returns,
whatever the override map. -/
theorem other_queries_pass_through {T : DirectoryTypes} {σ : Type}
    (m : GoMap AccountID Bool) (d : addressBook T σ) :
    (∀ a st, (NewSimpleAddressBook m d).GetAddressInfoByAddress a st
        = d.GetAddressInfoByAddress a st) ∧
    (∀ a st, (NewSimpleAddressBook m d).GetCollectionInfoByAddress a st
        = d.GetCollectionInfoByAddress a st) ∧
    (∀ a st, (NewSimpleAddressBook m d).GetJettonInfoByAddress a st
        = d.GetJettonInfoByAddress a st) ∧
    (∀ a st, (NewSimpleAddressBook m d).GetTFPoolInfo a st = d.GetTFPoolInfo a st) ∧
    (∀ st, (NewSimpleAddressBook m d).GetKnownJettons st = d.GetKnownJettons st) ∧
    (∀ st, (NewSimpleAddressBook m d).GetKnownCollections st = d.GetKnownCollections st) ∧
    (∀ pfx st, (NewSimpleAddressBook m d).SearchAttachedAccountsByPrefix pfx st
        = d.SearchAttachedAccountsByPrefix pfx st) :=
  ⟨fun _ _ => rfl, fun _ _ => rfl, fun _ _ => rfl, fun _ _ => rfl, fun _ => rfl,
    fun _ => rfl, fun _ _ => rfl⟩

/-- Claim C10. With a nil or an empty override map the lookup finds nothing (it does not
fail) and `IsWallet` is the fallback directory's `IsWallet`, value, error and effect. -/
theorem IsWallet_transparent {T : DirectoryTypes} {σ : Type} (m : GoMap AccountID Bool)
    (d : addressBook T σ) (a : AccountID) (st : σ)
    (hempty : m = GoMap.nil ∨ m = GoMap.table []) :
    m.get a = none ∧ (NewSimpleAddressBook m d).IsWallet a st = d.IsWallet a st := by
  rcases hempty with h | h <;>
    simp [h, SimpleAddressBook.IsWallet, NewSimpleAddressBook, GoMap.get, lookupEntry]

/-- On the nil override map the override layer answers what the directory answers. -/
theorem IsWallet_transparent_witness :
    (GoMap.nil : GoMap AccountID Bool).get acctA = none ∧
      (NewSimpleAddressBook GoMap.nil
          (countingBook (true, some "directory unavailable"))).IsWallet acctA 0
        = ((true, some "directory unavailable"), 1) :=
  IsWallet_transparent GoMap.nil (countingBook (true, some "directory unavailable")) acctA 0
    (Or.inl rfl)


/-! ## The message operation decoder -/

theorem decodeWithTag_skip {P : Type} (tag : Nat) (body : Cell) (pre rest : List (OpDecoder P))
    (hpre : ∀ d ∈ pre, d.recognizes tag = false) :
    decodeWithTag tag body (pre ++ rest) = decodeWithTag tag body rest := by
  induction pre with
  | nil => rfl
  | cons d ds ih =>
    have hd : d.recognizes tag = false := hpre d (List.mem_cons_self d ds)
    have hds : ∀ x ∈ ds, x.recognizes tag = false :=
      fun x hx => hpre x (List.mem_cons_of_mem d hx)
    simp [decodeWithTag, hd, ih hds]

/-- Claim C5. When two interfaces of the registry both claim the body's tag and the
earlier one is the first of the registry to claim it, the decoder returns the earlier
one's decode result (its value, or the decode error of its failure), whatever the later
interface would have decoded and whatever else follows the earlier one. -/
theorem ExtInMessageDecoder_first_match_wins {P : Type} (pre mid post : List (OpDecoder P))
    (earlier later : OpDecoder P) (body : Cell) (tag : Nat)
    (htag : readTag body = some tag)
    (hpre : ∀ d ∈ pre, d.recognizes tag = false)
    (hearlier : earlier.recognizes tag = true)
    (_hlater : later.recognizes tag = true) :
    ExtInMessageDecoder body (pre ++ earlier :: (mid ++ later :: post))
        = claimOutcome earlier tag body ∧
      ∀ rest, ExtInMessageDecoder body (pre ++ earlier :: rest)
        = claimOutcome earlier tag body := by
  have key : ∀ rest, ExtInMessageDecoder body (pre ++ earlier :: rest)
      = claimOutcome earlier tag body := by
    intro rest
    simp [ExtInMessageDecoder, htag, decodeWithTag_skip tag body pre (earlier :: rest) hpre,
      decodeWithTag, hearlier]
  exact ⟨key _, key⟩

/-- Two interfaces claim `0x7369676e`; the earlier one fails to decode and the later one
would have succeeded: the call fails with the earlier one's error. -/
theorem ExtInMessageDecoder_first_match_wins_witness :
    lenientSigned.decode signedBody.afterTag = Except.ok 0x7f ∧
      ExtInMessageDecoder signedBody [otherOp, strictSigned, lenientSigned]
        = Except.error
            (DecodeError.malformedBody "WalletSignedExternalV5R1" "unexpected end of body") :=
  ⟨rfl,
    (ExtInMessageDecoder_first_match_wins [otherOp] [] [] strictSigned lenientSigned
      signedBody 0x7369676e (by decide) (by decide) rfl rfl).1⟩

/-- Claim C6. For a body long enough to hold a tag that no interface of the registry
claims, the decoder returns without error the "no match" result: no operation, and the
raw tag read from the body. -/
theorem ExtInMessageDecoder_no_match {P : Type} (interfaces : List (OpDecoder P))
    (body : Cell) (hlen : tagWidth ≤ body.bits.length)
    (hnone : ∀ d ∈ interfaces, d.recognizes (bitsToNat (body.bits.take tagWidth)) = false) :
    ∃ r, ExtInMessageDecoder body interfaces = Except.ok r ∧
      r = Decoded.noMatch (bitsToNat (body.bits.take tagWidth)) ∧
      r.operation? = none ∧ r.tag = bitsToNat (body.bits.take tagWidth) := by
  have htag : readTag body = some (bitsToNat (body.bits.take tagWidth)) := by
    simp [readTag, Nat.not_lt.mpr hlen]
  have hwalk := decodeWithTag_skip (bitsToNat (body.bits.take tagWidth)) body interfaces [] hnone
  refine ⟨Decoded.noMatch (bitsToNat (body.bits.take tagWidth)), ?_, rfl, rfl, rfl⟩
  simpa [ExtInMessageDecoder, htag, decodeWithTag] using hwalk

/-- The tag `0x7369676e` is not claimed by a registry that knows `0x0f8a7ea5` only. -/
theorem ExtInMessageDecoder_no_match_witness :
    ∃ r, ExtInMessageDecoder signedBody [otherOp] = Except.ok r ∧
      r = Decoded.noMatch (bitsToNat (signedBody.bits.take tagWidth)) ∧
      r.operation? = none ∧ r.tag = bitsToNat (signedBody.bits.take tagWidth) :=
  ExtInMessageDecoder_no_match [otherOp] signedBody (by decide) (by decide)

/-! ## The account converter -/

theorem ConvertToAccount_ok {W : AccountWidths} {accountID : AccountID}
    {shardAccount : ShardAccount} {acc : Account}
    (h : ConvertToAccount W accountID shardAccount = Except.ok acc) :
    (shardAccount.status = AccountStatus.NonExistent ∧
        acc = minimalAccount accountID AccountStatus.NonExistent) ∨
      (shardAccount.status ≠ AccountStatus.NonExistent ∧
        shardAccount.balance < 2 ^ W.TonBalance ∧
        shardAccount.storageStat.lastPaid < 2 ^ W.LastPaid ∧
        shardAccount.storageStat.duePayment < 2 ^ W.DuePayment ∧
        acc = { AccountAddress := accountID
                Status := shardAccount.status
                TonBalance := shardAccount.balance
                ExtraBalances := extraBalancesOf shardAccount.extraCurrencies
                LastTransactionLt := shardAccount.lastTransLt
                Storage := storageInfoOf shardAccount.storageStat
                Code := shardAccount.state.map StateInit.code
                Data := shardAccount.state.map StateInit.data }) := by
  unfold ConvertToAccount at h
  by_cases hs : shardAccount.status = AccountStatus.NonExistent
  · left
    rw [if_pos hs] at h
    exact ⟨hs, (Except.ok.inj h).symm⟩
  · right
    rw [if_neg hs] at h
    by_cases hbal : 2 ^ W.TonBalance ≤ shardAccount.balance
    · rw [if_pos hbal] at h; cases h
    · rw [if_neg hbal] at h
      by_cases hpaid : 2 ^ W.LastPaid ≤ shardAccount.storageStat.lastPaid
      · rw [if_pos hpaid] at h; cases h
      · rw [if_neg hpaid] at h
        by_cases hdue : 2 ^ W.DuePayment ≤ shardAccount.storageStat.duePayment
        · rw [if_pos hdue] at h; cases h
        · rw [if_neg hdue] at h
          exact ⟨hs, Nat.not_le.mp hbal, Nat.not_le.mp hpaid, Nat.not_le.mp hdue,
            (Except.ok.inj h).symm⟩

theorem ConvertToAccount_fits {W : AccountWidths} {accountID : AccountID}
    {shardAccount : ShardAccount} {acc : Account}
    (h : ConvertToAccount W accountID shardAccount = Except.ok acc) : acc.fits W := by
  rcases ConvertToAccount_ok h with ⟨_, hacc⟩ | ⟨_, hbal, hpaid, hdue, hacc⟩
  · subst hacc
    exact ⟨Nat.pow_pos (by decide), Nat.pow_pos (by decide), Nat.pow_pos (by decide)⟩
  · subst hacc
    exact ⟨hbal, hpaid, hdue⟩

/-- Claim C7. On every address and schema record that `ConvertToAccount` converts: a
resulting status NonExistent comes with balance 0 and neither code nor data; a resulting
status Active on a record that carries a non-empty state comes with code and data both
present and non-empty. -/
theorem ConvertToAccount_status_implies_presence (W : AccountWidths) (accountID : AccountID)
    (shardAccount : ShardAccount) (acc : Account)
    (hok : ConvertToAccount W accountID shardAccount = Except.ok acc) :
    (acc.Status = AccountStatus.NonExistent →
        acc.TonBalance = 0 ∧ acc.Code = none ∧ acc.Data = none) ∧
      (acc.Status = AccountStatus.Active → carriesNonEmptyState shardAccount →
        ∃ code data, acc.Code = some code ∧ code ≠ [] ∧ acc.Data = some data ∧ data ≠ []) := by
  rcases ConvertToAccount_ok hok with ⟨_, hacc⟩ | ⟨hs, _, _, _, hacc⟩
  · subst hacc
    refine ⟨fun _ => ⟨rfl, rfl, rfl⟩, fun hactive => ?_⟩
    simp [minimalAccount] at hactive
  · subst hacc
    refine ⟨fun hnone => absurd hnone hs, fun _ hstate => ?_⟩
    obtain ⟨st, hst, hcode, hdata⟩ := hstate
    exact ⟨st.code, st.data, by simp [hst], hcode, by simp [hst], hdata⟩

/-- The active record of the test converts to an account whose code and data are present
and non-empty; the same record marked non-existent converts to an account with balance 0
and neither code nor data. -/
theorem ConvertToAccount_status_implies_presence_witness :
    (ConvertToAccount sampleWidths activeAddress activeRecord = Except.ok activeAccount ∧
        ∃ code data, activeAccount.Code = some code ∧ code ≠ [] ∧
          activeAccount.Data = some data ∧ data ≠ []) ∧
      (ConvertToAccount sampleWidths activeAddress
            { activeRecord with status := AccountStatus.NonExistent }
          = Except.ok (minimalAccount activeAddress AccountStatus.NonExistent) ∧
        (minimalAccount activeAddress AccountStatus.NonExistent).TonBalance = 0 ∧
        (minimalAccount activeAddress AccountStatus.NonExistent).Code = none ∧
        (minimalAccount activeAddress AccountStatus.NonExistent).Data = none) :=
  ⟨⟨rfl,
      (ConvertToAccount_status_implies_presence sampleWidths activeAddress activeRecord
        activeAccount rfl).2 rfl ⟨_, rfl, by decide, by decide⟩⟩,
    ⟨rfl,
      (ConvertToAccount_status_implies_presence sampleWidths activeAddress
        { activeRecord with status := AccountStatus.NonExistent }
        (minimalAccount activeAddress AccountStatus.NonExistent) rfl).1 rfl⟩⟩

/-- Claim C8. On every schema record with zero extra currencies that `ConvertToAccount`
converts, the account's `ExtraBalances` is the nil map and not an empty table. -/
theorem ConvertToAccount_no_extra_balances (W : AccountWidths) (accountID : AccountID)
    (shardAccount : ShardAccount) (acc : Account)
    (hok : ConvertToAccount W accountID shardAccount = Except.ok acc)
    (hzero : shardAccount.extraCurrencies = []) :
    acc.ExtraBalances = GoMap.nil ∧ acc.ExtraBalances ≠ GoMap.table [] := by
  have hnil : acc.ExtraBalances = GoMap.nil := by
    rcases ConvertToAccount_ok hok with ⟨_, hacc⟩ | ⟨_, _, _, _, hacc⟩
    · subst hacc; rfl
    · subst hacc; simp [extraBalancesOf, hzero]
  exact ⟨hnil, by rw [hnil]; exact fun h => GoMap.noConfusion h⟩

/-- The active record of the test has no extra currency: its account has nil
`ExtraBalances`. -/
theorem ConvertToAccount_no_extra_balances_witness :
    activeRecord.extraCurrencies = [] ∧
      ∃ acc, ConvertToAccount sampleWidths activeAddress activeRecord = Except.ok acc ∧
        acc.ExtraBalances = GoMap.nil ∧ acc.ExtraBalances ≠ GoMap.table [] :=
  ⟨rfl, _, rfl,
    ConvertToAccount_no_extra_balances sampleWidths activeAddress activeRecord _ rfl rfl⟩

/-- Claim C9, as stated, fails: the Active record with balance `2 ^ 64 + 1` has no account
value whose `TonBalance`, a built-in number, equals its balance, whatever the converter;
`ConvertToAccount` ends in a decode error on it, for every width a built-in number has. -/
theorem ConvertToAccount_balance_beyond_field :
    wideBalanceRecord.status = AccountStatus.Active ∧
      wideBalanceRecord.balance = 2 ^ 64 + 1 ∧
      (∀ W : AccountWidths, W.builtin → ∀ acc : Account, acc.fits W →
        acc.TonBalance ≠ wideBalanceRecord.balance) ∧
      (∀ W : AccountWidths, W.builtin →
        ConvertToAccount W activeAddress wideBalanceRecord
          = Except.error (DecodeError.numericOverflow "TonBalance")) := by
  have hwide : ∀ W : AccountWidths, W.builtin →
      2 ^ W.TonBalance ≤ wideBalanceRecord.balance := by
    intro W hW
    have hpow : 2 ^ W.TonBalance ≤ 2 ^ 64 := Nat.pow_le_pow_right (by decide) hW.1
    exact Nat.le_trans hpow (Nat.le_succ _)
  refine ⟨rfl, rfl, ?_, ?_⟩
  · intro W hW acc hfits heq
    have h1 : acc.TonBalance < 2 ^ W.TonBalance := hfits.1
    have h2 := hwide W hW
    rw [heq] at h1
    exact absurd h2 (Nat.not_le.mpr h1)
  · intro W hW
    have hs : ¬ wideBalanceRecord.status = AccountStatus.NonExistent := by decide
    unfold ConvertToAccount
    rw [if_neg hs, if_pos (hwide W hW)]

/-- Claim C9, amended. For every address and every Active schema record whose balance,
last-paid timestamp and due payment fit the built-in numeric fields of the account,
`ConvertToAccount` succeeds with an account of that address and status Active whose
balance, logical time, used cells, used bits, used public cells, last-paid timestamp and
due payment are the record's. -/
theorem ConvertToAccount_field_fidelity (W : AccountWidths) (accountID : AccountID)
    (shardAccount : ShardAccount)
    (hactive : shardAccount.status = AccountStatus.Active)
    (hbal : shardAccount.balance < 2 ^ W.TonBalance)
    (hpaid : shardAccount.storageStat.lastPaid < 2 ^ W.LastPaid)
    (hdue : shardAccount.storageStat.duePayment < 2 ^ W.DuePayment) :
    ∃ acc, ConvertToAccount W accountID shardAccount = Except.ok acc ∧
      acc.AccountAddress = accountID ∧
      acc.Status = AccountStatus.Active ∧
      acc.TonBalance = shardAccount.balance ∧
      acc.LastTransactionLt = shardAccount.lastTransLt ∧
      acc.Storage.UsedCells = shardAccount.storageStat.usedCells ∧
      acc.Storage.UsedBits = shardAccount.storageStat.usedBits ∧
      acc.Storage.UsedPublicCells = shardAccount.storageStat.usedPublicCells ∧
      acc.Storage.LastPaid = shardAccount.storageStat.lastPaid ∧
      acc.Storage.DuePayment = shardAccount.storageStat.duePayment := by
  have hs : shardAccount.status ≠ AccountStatus.NonExistent := by
    rw [hactive]; exact fun h => AccountStatus.noConfusion h
  refine ⟨{ AccountAddress := accountID
            Status := shardAccount.status
            TonBalance := shardAccount.balance
            ExtraBalances := extraBalancesOf shardAccount.extraCurrencies
            LastTransactionLt := shardAccount.lastTransLt
            Storage := storageInfoOf shardAccount.storageStat
            Code := shardAccount.state.map StateInit.code
            Data := shardAccount.state.map StateInit.data }, ?_,
          rfl, hactive, rfl, rfl, rfl, rfl, rfl, rfl, rfl⟩
  unfold ConvertToAccount
  rw [if_neg hs, if_neg (Nat.not_le.mpr hbal), if_neg (Nat.not_le.mpr hpaid),
    if_neg (Nat.not_le.mpr hdue)]

/-- The scenario of the test: 46 used cells, 13485 used bits, 0 public cells, last paid
1663270333, due payment 0, balance 989109352, logical time 31236013000006. -/
theorem ConvertToAccount_field_fidelity_witness :
    ∃ acc, ConvertToAccount sampleWidths activeAddress activeRecord = Except.ok acc ∧
      acc.AccountAddress = activeAddress ∧
      acc.Status = AccountStatus.Active ∧
      acc.TonBalance = 989109352 ∧
      acc.LastTransactionLt = 31236013000006 ∧
      acc.Storage.UsedCells = 46 ∧
      acc.Storage.UsedBits = 13485 ∧
      acc.Storage.UsedPublicCells = 0 ∧
      acc.Storage.LastPaid = 1663270333 ∧
      acc.Storage.DuePayment = 0 :=
  ConvertToAccount_field_fidelity sampleWidths activeAddress activeRecord rfl
    (by decide) (by decide) (by decide)

end Core
